import Mathlib

/-!
Verification development for the `maskit` PDF PII-masking pipeline
(`src/maskit/maskit.py`, `src/llms.py`, `src/types.py`, `src/settings.py`).

The repository is a thin orchestration layer over a PDF engine (pymupdf) and
LLM clients.  We embed the orchestration code faithfully:

* Python keyword-argument values (`None`, `int`, `str`) become `PyVal`, with
  Python truthiness (`pyTruthy`) and `int()` conversion (`pyToInt`).
* A PDF page is a sequence of glyph slots (`some c` a visible character,
  `none` a slot whose glyph has been removed by redaction), plus the list of
  highlight marks added to it.  The engine's literal text search
  (`Page.search_for`) is modelled as exact substring search over the glyph
  slots, returning the list of match start positions; applying redactions
  removes exactly the glyphs covered by the marked rectangles, leaving the
  surrounding glyphs in place (a removed span does not splice its neighbours
  together).
* Effectful calls (search, annotation insertion, redaction application, LLM
  invocation) are recorded in an operation trace so that claims counting the
  calls a function issues can be stated.
* Fallible Python code (exceptions) returns `Option` / `Except`.
-/

namespace Maskit

/-- A Python value as it can reach `Masker.extract_pii` through `**kwargs`:
absent/`None`, an `int`, or a `str` (the web front end passes strings). -/
inductive PyVal
  | none
  | int (n : Int)
  | str (s : String)
deriving DecidableEq

/-- Python truthiness for the values above: `None`, `0` and `""` are falsy. -/
def pyTruthy : PyVal → Bool
  | PyVal.none => false
  | PyVal.int n => n != 0
  | PyVal.str s => s != ""

/-- Python `int(...)` on such a value; `Option.none` models the raised
`TypeError`/`ValueError` (for `None` or a non-numeric string). -/
def pyToInt : PyVal → Option Int
  | PyVal.none => Option.none
  | PyVal.int n => some n
  | PyVal.str s => s.toInt?

/-- `EntityType` from `src/maskit/maskit.py` (a `str` enum). -/
inductive EntityType
  | NAME
  | EMAIL
  | PHONE
  | ADDRESS
  | ACCOUNT_NUMBER
deriving DecidableEq

/-- The string value of each `EntityType` member. -/
def EntityType.value : EntityType → String
  | EntityType.NAME => "name"
  | EntityType.EMAIL => "email"
  | EntityType.PHONE => "phone"
  | EntityType.ADDRESS => "address"
  | EntityType.ACCOUNT_NUMBER => "account_number"

/-- `PIIEntity` from `src/maskit/maskit.py`: a text span and its type. -/
structure PIIEntity where
  text : String
  type : EntityType
deriving DecidableEq

/-- A loaded PDF page: its glyph slots (`some c` a visible character, `none` a
slot emptied by an applied redaction) and the highlight marks
`(start, length, note)` added to it. -/
structure Page where
  chars : List (Option Char)
  highlights : List (Nat × Nat × String)
deriving DecidableEq, Inhabited

/-- A freshly loaded page rendering the given text, with no marks. -/
def mkPage (s : String) : Page := ⟨s.data.map some, []⟩

/-- Does `nd` match the visible glyphs at the head of `cs`?  A removed slot
(`Option.none`) never matches a character. -/
def prefixMatch : List Char → List (Option Char) → Bool
  | [], _ => true
  | _ :: _, [] => false
  | c :: cs, o :: os => o == some c && prefixMatch cs os

/-- The engine's literal text search (`Page.search_for`): the start positions
of the exact occurrences of `needle` among the visible glyphs, in ascending
order; the empty needle finds nothing. -/
def search_for (needle : String) (cs : List (Option Char)) : List Nat :=
  if needle = "" then []
  else (List.range cs.length).filter (fun i => prefixMatch needle.data (cs.drop i))

/-- `Page.get_text()`: the visible characters of the page, in order. -/
def get_text (pg : Page) : String := String.mk (pg.chars.filterMap id)

/-- One engine/LLM call issued while a `Masker` method runs, in program order. -/
inductive PdfOp
  | searchFor (needle : String)
  | addHighlight (start len : Nat) (note : String)
  | addRedact (start len : Nat)
  | applyRedactions
  | llmInvoke (pageText : String)
deriving DecidableEq

/-- Line 39 of `maskit.py`:
`from_page = int(kwargs.get("from_page_no", 1)) - 1 if kwargs.get("from_page_no") else 0`. -/
def fromPageIdx (fp : PyVal) : Option Int :=
  if pyTruthy fp then (pyToInt fp).map (fun n => n - 1) else some 0

/-- Line 40 of `maskit.py`:
`to_page = int(kwargs.get("to_page_no", doc.page_count)) if kwargs.get("to_page_no") else doc.page_count`. -/
def toPageIdx (page_count : Nat) (tp : PyVal) : Option Int :=
  if pyTruthy tp then pyToInt tp else some (page_count : Int)

/-- Python `range(a, b)` over integers: `[a, a+1, ..., b-1]` (empty when `b ≤ a`). -/
def pythonRange (a b : Int) : List Int :=
  (List.range (b - a).toNat).map (fun i : Nat => a + (i : Int))

/-- The page indices `extract_pii` iterates over:
`range(from_page, to_page)` after the conversions of lines 39-40;
`Option.none` models a raised conversion error. -/
def extractRange (page_count : Nat) (fp tp : PyVal) : Option (List Int) :=
  match fromPageIdx fp, toPageIdx page_count tp with
  | some a, some b => some (pythonRange a b)
  | _, _ => Option.none

/-- `Document.load_page(i)`: a valid non-negative index loads that page,
a negative index counts back from the end, anything else raises. -/
def load_page (doc : List Page) (i : Int) : Option Page :=
  if 0 ≤ i ∧ i < (doc.length : Int) then doc.get? i.toNat
  else if -(doc.length : Int) ≤ i ∧ i < 0 then doc.get? (i + doc.length).toNat
  else Option.none

/-- One iteration of the `extract_pii` loop (lines 43-46): load the page, read
its text, invoke the LLM once on it, extend the accumulated entity list. -/
def extractStep (llm : String → List PIIEntity) (doc : List Page)
    (acc : Option (List PIIEntity × List PdfOp)) (i : Int) :
    Option (List PIIEntity × List PdfOp) :=
  acc.bind (fun p => (load_page doc i).map (fun pg =>
    (p.1 ++ llm (get_text pg), p.2 ++ [PdfOp.llmInvoke (get_text pg)])))

/-- `Masker.extract_pii` (lines 37-48), with the LLM modelled as a function
from page text to the entities it returns.  The result pairs the accumulated
entity list with the trace of LLM calls issued; `Option.none` models a raised
exception (bad page-number conversion or page index). -/
def extract_pii (llm : String → List PIIEntity) (doc : List Page)
    (fp tp : PyVal) : Option (List PIIEntity × List PdfOp) :=
  (extractRange doc.length fp tp).bind (fun idxs =>
    idxs.foldl (extractStep llm doc) (some ([], [])))

/-- The note attached to a highlight:
`highlight.set_info(content=f"PII Type: {entity.type}")`, with the `str`-enum
member interpolated as its string value. -/
def piiNote (t : EntityType) : String := "PII Type: " ++ t.value

/-- The inner loops of `highlight_pii` on one page (lines 52-57): for each
entity, search the page and add one highlight mark per match, annotated with
the PII-type note.  Highlighting leaves the glyphs untouched. -/
def highlightPage (entities : List PIIEntity) (pg : Page) : Page :=
  { pg with highlights := pg.highlights ++
      entities.flatMap (fun e =>
        (search_for e.text pg.chars).map (fun i => (i, e.text.length, piiNote e.type))) }

/-- The engine calls `highlight_pii` issues on one page, in program order. -/
def highlightPageOps (entities : List PIIEntity) (pg : Page) : List PdfOp :=
  entities.flatMap (fun e => PdfOp.searchFor e.text ::
    (search_for e.text pg.chars).map (fun i => PdfOp.addHighlight i e.text.length (piiNote e.type)))

/-- The serialized output of `Document.convert_to_pdf()`: the document's pages
as rendered into the returned bytes. -/
structure PdfBytes where
  pages : List Page
deriving DecidableEq

/-- `Document.convert_to_pdf()`. -/
def convert_to_pdf (doc : List Page) : PdfBytes := ⟨doc⟩

/-- `Masker.highlight_pii` (lines 50-58): if the entity list is non-empty,
annotate every page, then serialize; paired with the trace of engine calls. -/
def highlight_pii (doc : List Page) (entities : List PIIEntity) :
    PdfBytes × List PdfOp :=
  if entities.isEmpty then (convert_to_pdf doc, [])
  else (convert_to_pdf (doc.map (highlightPage entities)),
        doc.flatMap (highlightPageOps entities))

/-- The redaction rectangles marked on one page by the inner loops of
`redact_pii` (lines 62-66): for each entity, one `(start, length)` rectangle
per match of its text on the page (annotating does not change the glyphs, so
every entity is searched against the same page content). -/
def redactRects (entities : List PIIEntity) (cs : List (Option Char)) :
    List (Nat × Nat) :=
  entities.flatMap (fun e => (search_for e.text cs).map (fun i => (i, e.text.length)))

/-- Is glyph slot `j` covered by one of the marked rectangles? -/
def covered (rects : List (Nat × Nat)) (j : Nat) : Bool :=
  rects.any (fun r => r.1 ≤ j && j < r.1 + r.2)

/-- `Page.apply_redactions()` on the glyph slots, `j` being the index of the
first slot: every covered glyph is removed; uncovered glyphs keep their place
(removing a span leaves a gap, it does not splice the neighbours together). -/
def eraseCovered : Nat → List (Nat × Nat) → List (Option Char) → List (Option Char)
  | _, _, [] => []
  | j, rects, o :: os =>
      (if covered rects j then Option.none else o) :: eraseCovered (j + 1) rects os

/-- The effect of the `redact_pii` page loop body on one page (lines 62-67):
mark every match of every entity, then apply the redactions for the page. -/
def redactPage (entities : List PIIEntity) (pg : Page) : Page :=
  { pg with chars := eraseCovered 0 (redactRects entities pg.chars) pg.chars }

/-- The engine calls `redact_pii` issues on one page, in program order: the
per-entity searches and marks, then one `apply_redactions`. -/
def redactPageOps (entities : List PIIEntity) (pg : Page) : List PdfOp :=
  (entities.flatMap (fun e => PdfOp.searchFor e.text ::
    (search_for e.text pg.chars).map (fun i => PdfOp.addRedact i e.text.length)))
    ++ [PdfOp.applyRedactions]

/-- `Masker.redact_pii` (lines 60-68): if the entity list is non-empty, mark
and apply redactions page by page, then serialize; paired with the trace. -/
def redact_pii (doc : List Page) (entities : List PIIEntity) :
    PdfBytes × List PdfOp :=
  if entities.isEmpty then (convert_to_pdf doc, [])
  else (convert_to_pdf (doc.map (redactPage entities)),
        doc.flatMap (redactPageOps entities))

/-- `Settings` from `src/settings.py`: both fields default to the empty string. -/
structure Settings where
  openai_api_key : String := ""
  ollama_model_id : String := ""
deriving DecidableEq

/-- `LLMProvider` from `src/types.py` (a `str` enum with two members). -/
inductive LLMProvider
  | OLLAMA
  | OPENAI
deriving DecidableEq

/-- The string value of each `LLMProvider` member. -/
def LLMProvider.value : LLMProvider → String
  | LLMProvider.OLLAMA => "ollama"
  | LLMProvider.OPENAI => "openai"

/-- The enum call `LLMProvider(s)`: look the string up among the member
values; `Option.none` models the `ValueError` for an unknown value. -/
def LLMProvider.ofValue (s : String) : Option LLMProvider :=
  if s = "ollama" then some LLMProvider.OLLAMA
  else if s = "openai" then some LLMProvider.OPENAI
  else Option.none

/-- The `ChatOllama` client built by `get_ollama` in `src/llms.py`
(the fields the claims need: the configured model id). -/
structure ChatOllama where
  model : String
deriving DecidableEq

/-- The `ChatOpenAI` client built by `get_openai` in `src/llms.py`. -/
structure ChatOpenAI where
  model : String
  max_retries : Nat
  api_key : String
deriving DecidableEq

/-- A constructed LLM client, one variant per provider. -/
inductive LLMClient
  | ollama (c : ChatOllama)
  | openai (c : ChatOpenAI)
deriving DecidableEq

/-- A configuration error raised while building the pipeline: the enum's
`ValueError` for an unknown provider string, or `get_llm`'s
`ValueError("Unsupported LLM provider: ...")`. -/
inductive ConfigError
  | invalidProvider (s : String)
  | unsupportedProvider (s : String)
deriving DecidableEq

/-- `get_ollama` from `src/llms.py`. -/
def get_ollama (s : Settings) : LLMClient :=
  LLMClient.ollama ⟨s.ollama_model_id⟩

/-- `get_openai` from `src/llms.py`: model `"gpt-5-mini"`, `max_retries=2`,
the configured API key. -/
def get_openai (s : Settings) : LLMClient :=
  LLMClient.openai ⟨"gpt-5-mini", 2, s.openai_api_key⟩

/-- `get_llm` from `src/llms.py` (lines 23-29): dispatch on the provider,
raising for anything unsupported. -/
def get_llm (s : Settings) (p : LLMProvider) : Except ConfigError LLMClient :=
  if p = LLMProvider.OLLAMA then Except.ok (get_ollama s)
  else if p = LLMProvider.OPENAI then Except.ok (get_openai s)
  else Except.error (ConfigError.unsupportedProvider p.value)

/-- `Masker.__init__` (maskit.py lines 23-24): construct the LLM client for
the given provider; any raised error propagates. -/
def Masker.init (s : Settings) (p : LLMProvider) : Except ConfigError LLMClient :=
  get_llm s p

/-- The keyword arguments of `Masker.mask` the pipeline reads after the input
source: page range and mode flag. -/
structure MaskArgs where
  from_page_no : PyVal := PyVal.none
  to_page_no : PyVal := PyVal.none
  highlight_only : Bool := false
deriving DecidableEq

/-- `Masker.mask` (lines 70-89) after the document has been opened: extract
the entities over the requested range, then highlight or redact them;
`Option.none` models a raised exception during extraction. -/
def mask (llm : String → List PIIEntity) (doc : List Page) (a : MaskArgs) :
    Option PdfBytes :=
  (extract_pii llm doc a.from_page_no a.to_page_no).map (fun p =>
    if a.highlight_only then (highlight_pii doc p.1).1 else (redact_pii doc p.1).1)

/-- The pipeline construction performed by `__main__` (maskit.py line 105)
before any document is opened: `Masker(LLMProvider(args["llm_provider"]))`,
i.e. the enum lookup followed by `Masker.__init__`. -/
def buildPipeline (s : Settings) (provider : String) : Except ConfigError LLMClient :=
  match LLMProvider.ofValue provider with
  | Option.none => Except.error (ConfigError.invalidProvider provider)
  | some p => Masker.init s p

/-- The `__main__` block of `maskit.py` (lines 91-110), parameterised by what
the constructed client answers per page text.  It constructs the pipeline
(before touching the document), then runs `masker.mask(**args)` and DISCARDS
its result: the block contains no save or write call, so the list of
`(path, bytes)` filesystem writes it performs is empty whenever `mask`
succeeds.  `output_pdf` is the parsed `--output_pdf` argument, which the block
never uses. -/
def cliMain (s : Settings) (llmFn : LLMClient → String → List PIIEntity)
    (provider : String) (doc : List Page) (a : MaskArgs) (output_pdf : String) :
    Except ConfigError (Option (List (String × PdfBytes))) :=
  match buildPipeline s provider with
  | Except.error e => Except.error e
  | Except.ok llm => Except.ok ((mask (llmFn llm) doc a).map (fun _ => []))

/-! ### Helper lemmas -/

theorem pythonRange_zero (n : Nat) :
    pythonRange 0 n = (List.range n).map (fun i : Nat => (i : Int)) := by
  unfold pythonRange
  simp only [sub_zero, Int.toNat_natCast, zero_add]

theorem pythonRange_eq_nil {a b : Int} (h : b ≤ a) : pythonRange a b = [] := by
  unfold pythonRange
  rw [Int.toNat_of_nonpos (by omega)]
  rfl

theorem length_eraseCovered (rects : List (Nat × Nat)) :
    ∀ (j : Nat) (cs : List (Option Char)),
      (eraseCovered j rects cs).length = cs.length := by
  intro j cs
  induction cs generalizing j with
  | nil => rfl
  | cons o os ih => simp [eraseCovered, ih]

theorem eraseCovered_getElem? (rects : List (Nat × Nat)) :
    ∀ (cs : List (Option Char)) (j k : Nat),
      (eraseCovered j rects cs)[k]? =
        (cs[k]?).map (fun o => if covered rects (j + k) then Option.none else o) := by
  intro cs
  induction cs with
  | nil => intro j k; simp [eraseCovered]
  | cons o os ih =>
    intro j k
    cases k with
    | zero => simp [eraseCovered]
    | succ k =>
      simp only [eraseCovered, List.getElem?_cons_succ]
      rw [ih (j + 1) k]
      have harith : j + 1 + k = j + (k + 1) := by omega
      rw [harith]

theorem prefixMatch_iff (nd : List Char) :
    ∀ (cs : List (Option Char)),
      prefixMatch nd cs = true ↔
        ∀ (j : Nat) (c : Char), nd[j]? = some c → cs[j]? = some (some c) := by
  induction nd with
  | nil => intro cs; simp [prefixMatch]
  | cons c nd ih =>
    intro cs
    cases cs with
    | nil =>
      constructor
      · intro h; exact absurd h (by simp [prefixMatch])
      · intro h; have := h 0 c (by simp); simp at this
    | cons o os =>
      simp only [prefixMatch, Bool.and_eq_true, beq_iff_eq]
      constructor
      · rintro ⟨rfl, hpm⟩ j cc hj
        cases j with
        | zero => simp at hj; subst hj; simp
        | succ j =>
          simp only [List.getElem?_cons_succ] at hj ⊢
          exact ((ih os).mp hpm) j cc hj
      · intro h
        refine ⟨by simpa using h 0 c (by simp), (ih os).mpr ?_⟩
        intro j cc hj
        simpa using h (j + 1) cc (by simpa using hj)

theorem mem_search_for {needle : String} {cs : List (Option Char)} {i : Nat} :
    i ∈ search_for needle cs ↔
      needle ≠ "" ∧ i < cs.length ∧ prefixMatch needle.data (cs.drop i) = true := by
  unfold search_for
  by_cases h : needle = ""
  · simp [h]
  · rw [if_neg h, List.mem_filter, List.mem_range]
    simp [h]

theorem search_redactPage_eq_nil (entities : List PIIEntity) (e : PIIEntity)
    (he : e ∈ entities) (pg : Page) :
    search_for e.text (redactPage entities pg).chars = [] := by
  by_cases hemp : e.text = ""
  · unfold search_for; rw [if_pos hemp]
  · rw [List.eq_nil_iff_forall_not_mem]
    intro i hi
    rw [mem_search_for] at hi
    obtain ⟨-, hlt, hpm⟩ := hi
    have hchars : (redactPage entities pg).chars
        = eraseCovered 0 (redactRects entities pg.chars) pg.chars := rfl
    set rects := redactRects entities pg.chars with hrects
    rw [hchars, length_eraseCovered] at hlt
    rw [hchars] at hpm
    have hpt := (prefixMatch_iff e.text.data _).mp hpm
    have korig : ∀ (j : Nat) (c : Char), e.text.data[j]? = some c →
        pg.chars[i + j]? = some (some c) ∧ covered rects (i + j) = false := by
      intro j c hj
      have h1 := hpt j c hj
      rw [List.getElem?_drop, eraseCovered_getElem?] at h1
      simp only [Nat.zero_add] at h1
      cases h2 : pg.chars[i + j]? with
      | none => rw [h2] at h1; simp at h1
      | some o =>
        rw [h2] at h1
        cases hc : covered rects (i + j) with
        | true => simp [hc] at h1
        | false =>
          simp only [hc, Bool.false_eq_true, if_false, Option.map_some'] at h1
          exact ⟨h1, rfl⟩
    have horig : i ∈ search_for e.text pg.chars := by
      rw [mem_search_for]
      refine ⟨hemp, hlt, ?_⟩
      rw [prefixMatch_iff]
      intro j c hj
      rw [List.getElem?_drop]
      exact (korig j c hj).1
    have hrect : (i, e.text.length) ∈ rects := by
      rw [hrects]
      unfold redactRects
      rw [List.mem_flatMap]
      exact ⟨e, he, List.mem_map.mpr ⟨i, horig, rfl⟩⟩
    have hlen : 0 < e.text.length := by
      have hd : e.text.data ≠ [] := fun h => hemp (String.ext (by simp [h]))
      exact List.length_pos.mpr hd
    have hcov : covered rects i = true := by
      unfold covered
      rw [List.any_eq_true]
      refine ⟨(i, e.text.length), hrect, ?_⟩
      simp only [Bool.and_eq_true, decide_eq_true_eq]
      omega
    obtain ⟨c0, hc0⟩ : ∃ c0, e.text.data[0]? = some c0 := by
      cases hd : e.text.data with
      | nil => exact absurd (String.ext (by simp [hd])) hemp
      | cons a l => exact ⟨a, by simp [hd]⟩
    have huncov := (korig 0 c0 hc0).2
    rw [Nat.add_zero, hcov] at huncov
    exact Bool.noConfusion huncov

theorem pythonRange_zero_succ (n : Nat) :
    pythonRange 0 ((n : Nat) + 1 : Nat) = pythonRange 0 n ++ [(n : Int)] := by
  rw [pythonRange_zero, pythonRange_zero, List.range_succ, List.map_append]
  rfl

theorem extract_loop (llm : String → List PIIEntity) (doc : List Page) :
    ∀ n : Nat, n ≤ doc.length →
      (pythonRange 0 n).foldl (extractStep llm doc) (some ([], [])) =
        some ((doc.take n).flatMap (fun pg => llm (get_text pg)),
              (doc.take n).map (fun pg => PdfOp.llmInvoke (get_text pg))) := by
  intro n
  induction n with
  | zero => intro h; rw [pythonRange_eq_nil (by omega)]; rfl
  | succ n ih =>
    intro h
    have hlt : n < doc.length := by omega
    rw [pythonRange_zero_succ, List.foldl_append, ih (by omega)]
    obtain ⟨pg, hpg⟩ : ∃ pg, doc[n]? = some pg := by
      rw [List.getElem?_eq_getElem hlt]; exact ⟨_, rfl⟩
    have hload : load_page doc (n : Int) = some pg := by
      unfold load_page
      rw [if_pos ⟨Int.natCast_nonneg n, by exact_mod_cast hlt⟩, Int.toNat_natCast,
        List.get?_eq_getElem?]
      exact hpg
    simp only [List.foldl_cons, List.foldl_nil]
    unfold extractStep
    rw [hload]
    rw [List.take_succ, hpg]
    simp [List.flatMap_append]

/-! ### Claim theorems -/

/-- C1: with no `from_page_no` and no `to_page_no`, `extract_pii` iterates
over exactly the 0-based page indices `0, 1, ..., page_count - 1` in ascending
order, invokes the LLM once per processed page, and hence issues exactly
`page_count` LLM calls. -/
theorem extract_pii_default_processes_all_pages
    (llm : String → List PIIEntity) (doc : List Page) :
    extractRange doc.length PyVal.none PyVal.none =
      some ((List.range doc.length).map (fun i : Nat => (i : Int))) ∧
    extract_pii llm doc PyVal.none PyVal.none =
      some (doc.flatMap (fun pg => llm (get_text pg)),
            doc.map (fun pg => PdfOp.llmInvoke (get_text pg))) ∧
    (doc.map (fun pg => PdfOp.llmInvoke (get_text pg))).length = doc.length := by
  have hrange : extractRange doc.length PyVal.none PyVal.none
      = some (pythonRange 0 doc.length) := rfl
  refine ⟨by rw [hrange, pythonRange_zero], ?_, by simp⟩
  show (pythonRange 0 (doc.length : Nat)).foldl (extractStep llm doc) (some ([], []))
      = _
  rw [extract_loop llm doc doc.length le_rfl, List.take_length]

/-- C2: for an entity in the list whose literal text occurs exactly once on
some page, after `redact_pii` every page of the serialized output yields no
match when searched for that literal text (redactions having been applied per
page after all entities were marked on it). -/
theorem redact_pii_roundtrip (doc : List Page) (entities : List PIIEntity)
    (e : PIIEntity) (he : e ∈ entities) (k : Nat) (pg : Page)
    (hk : doc[k]? = some pg)
    (honce : (search_for e.text pg.chars).length = 1) :
    ∀ pg' ∈ (redact_pii doc entities).1.pages, search_for e.text pg'.chars = [] := by
  intro pg' hpg'
  have hne : entities.isEmpty = false := by
    cases entities with
    | nil => cases he
    | cons a l => rfl
  unfold redact_pii at hpg'
  rw [hne] at hpg'
  simp only [Bool.false_eq_true, if_false, convert_to_pdf] at hpg'
  rw [List.mem_map] at hpg'
  obtain ⟨q, hq, rfl⟩ := hpg'
  exact search_redactPage_eq_nil entities e he q

/-- Witness for C2: on a one-page document whose page renders `"ab"` exactly
once, redacting the entity `"ab"` leaves an output page on which searching for
`"ab"` finds nothing. -/
theorem redact_pii_roundtrip_witness :
    search_for "ab"
      ((List.headI (redact_pii [mkPage "ab"]
        [⟨"ab", EntityType.NAME⟩]).1.pages).chars) = [] := by
  have h := redact_pii_roundtrip [mkPage "ab"] [⟨"ab", EntityType.NAME⟩]
      ⟨"ab", EntityType.NAME⟩ (by decide) 0 (mkPage "ab") rfl (by decide)
  exact h _ (by decide)

/-- C3: highlighting is non-destructive: for an entity in the list, every page
of the `highlight_pii` output still yields the original matches for the
entity's literal text, and each match carries a highlight mark whose note
contains the entity's type label. -/
theorem highlight_pii_nondestructive (doc : List Page) (entities : List PIIEntity)
    (e : PIIEntity) (he : e ∈ entities) (k : Nat) (pg : Page)
    (hk : doc[k]? = some pg) :
    (highlight_pii doc entities).1.pages[k]? = some (highlightPage entities pg) ∧
    search_for e.text (highlightPage entities pg).chars = search_for e.text pg.chars ∧
    (∀ i ∈ search_for e.text pg.chars,
      (i, e.text.length, piiNote e.type) ∈ (highlightPage entities pg).highlights) ∧
    piiNote e.type = "PII Type: " ++ e.type.value := by
  have hne : entities.isEmpty = false := by
    cases entities with
    | nil => cases he
    | cons a l => rfl
  refine ⟨?_, rfl, ?_, rfl⟩
  · unfold highlight_pii
    rw [hne]
    simp only [Bool.false_eq_true, if_false, convert_to_pdf]
    rw [List.getElem?_map, hk]
    rfl
  · intro i hi
    unfold highlightPage
    simp only [List.mem_append]
    right
    rw [List.mem_flatMap]
    exact ⟨e, he, List.mem_map.mpr ⟨i, hi, rfl⟩⟩

/-- Witness for C3 on a concrete one-page document containing `"ab"`. -/
theorem highlight_pii_nondestructive_witness :
    (highlight_pii [mkPage "ab"] [⟨"ab", EntityType.NAME⟩]).1.pages[0]? =
      some (highlightPage [⟨"ab", EntityType.NAME⟩] (mkPage "ab")) ∧
    search_for "ab" (highlightPage [⟨"ab", EntityType.NAME⟩] (mkPage "ab")).chars =
      search_for "ab" (mkPage "ab").chars ∧
    (0, "ab".length, piiNote EntityType.NAME) ∈
      (highlightPage [⟨"ab", EntityType.NAME⟩] (mkPage "ab")).highlights := by
  have h := highlight_pii_nondestructive [mkPage "ab"] [⟨"ab", EntityType.NAME⟩]
      ⟨"ab", EntityType.NAME⟩ (by decide) 0 (mkPage "ab") rfl
  exact ⟨h.1, h.2.1, h.2.2.1 0 (by decide)⟩

/-- C5 (code behaviour at the claimed property): every successful CLI
invocation performs NO filesystem write at all — `__main__` discards the
result of `masker.mask(**args)` and never saves it to `--output_pdf`.
This refutes the claim that the resulting bytes are saved to disk. -/
theorem cli_never_writes_output (s : Settings)
    (f : LLMClient → String → List PIIEntity) (provider : String)
    (doc : List Page) (a : MaskArgs) (out : String)
    (w : List (String × PdfBytes))
    (hw : cliMain s f provider doc a out = Except.ok (some w)) :
    w = [] ∧ ∀ b : PdfBytes, (out, b) ∉ w := by
  unfold cliMain at hw
  cases hb : buildPipeline s provider with
  | error e =>
    rw [hb] at hw
    exact absurd hw (by simp)
  | ok llm =>
    rw [hb] at hw
    have hw2 : Except.ok (Option.map (fun _ => ([] : List (String × PdfBytes)))
        (mask (f llm) doc a)) = Except.ok (some w) := hw
    cases hm : mask (f llm) doc a with
    | none =>
      rw [hm] at hw2
      exact absurd hw2 (by simp)
    | some b =>
      rw [hm] at hw2
      have hmap : some ([] : List (String × PdfBytes)) = some w := Except.ok.inj hw2
      have hwnil : w = [] := (Option.some.inj hmap).symm
      subst hwnil
      exact ⟨rfl, fun b hmem => List.not_mem_nil _ hmem⟩

/-- Witness for C5: a concrete successful CLI invocation (one-page document,
provider `"openai"`, output path `"out.pdf"`) writes nothing to disk. -/
theorem cli_never_writes_output_witness :
    ([] : List (String × PdfBytes)) = [] ∧
    ∀ b : PdfBytes, ("out.pdf", b) ∉ ([] : List (String × PdfBytes)) :=
  cli_never_writes_output ⟨"", ""⟩ (fun _ _ => []) "openai" [mkPage "hi"]
    ⟨PyVal.none, PyVal.none, false⟩ "out.pdf" [] rfl

/-- C6: on a 5-page document, `from_page_no=2` and `to_page_no=3` make
`extract_pii` process exactly the pages with 0-based indices 1 and 2; in
general a truthy integer `from_page_no = m` is converted to the 0-based start
`m - 1` and a truthy integer `to_page_no = n` is used as the exclusive end of
the 0-based range. -/
theorem extract_pii_page_window (llm : String → List PIIEntity)
    (p0 p1 p2 p3 p4 : Page) :
    extract_pii llm [p0, p1, p2, p3, p4] (PyVal.int 2) (PyVal.int 3) =
      some (llm (get_text p1) ++ llm (get_text p2),
            [PdfOp.llmInvoke (get_text p1), PdfOp.llmInvoke (get_text p2)]) ∧
    (∀ (pc : Nat) (m n : Int), m ≠ 0 → n ≠ 0 →
      extractRange pc (PyVal.int m) (PyVal.int n) = some (pythonRange (m - 1) n)) := by
  constructor
  · rfl
  · intro pc m n hm hn
    have htm : pyTruthy (PyVal.int m) = true := by simp [pyTruthy, hm]
    have htn : pyTruthy (PyVal.int n) = true := by simp [pyTruthy, hn]
    have h1 : fromPageIdx (PyVal.int m) = some (m - 1) := by
      unfold fromPageIdx
      rw [if_pos htm]
      rfl
    have h2 : toPageIdx pc (PyVal.int n) = some n := by
      unfold toPageIdx
      rw [if_pos htn]
      rfl
    unfold extractRange
    rw [h1, h2]

/-- Witness for C6's general conversion conjunct at `page_count = 5`,
`from_page_no = 2`, `to_page_no = 3`. -/
theorem extract_pii_page_window_witness :
    extractRange 5 (PyVal.int 2) (PyVal.int 3) = some (pythonRange (2 - 1) 3) :=
  (extract_pii_page_window (fun _ => []) (mkPage "a") (mkPage "b") (mkPage "c")
      (mkPage "d") (mkPage "e")).2 5 2 3 (by decide) (by decide)

/-- C7: with an empty entity list, `highlight_pii` and `redact_pii` return the
serialization of the unchanged document and issue zero search and zero
annotation operations (their traces are empty). -/
theorem empty_entities_noop (doc : List Page) :
    highlight_pii doc [] = (convert_to_pdf doc, []) ∧
    redact_pii doc [] = (convert_to_pdf doc, []) :=
  ⟨rfl, rfl⟩

/-- C8: an unsupported provider string fails the pipeline construction with a
configuration error, uniformly in the document (so before any document I/O),
while `"openai"` and `"ollama"` construct their clients without error. -/
theorem unsupported_provider_fails (s : Settings)
    (f : LLMClient → String → List PIIEntity) (provider : String)
    (doc : List Page) (a : MaskArgs) (out : String)
    (h1 : provider ≠ "openai") (h2 : provider ≠ "ollama") :
    cliMain s f provider doc a out =
      Except.error (ConfigError.invalidProvider provider) ∧
    buildPipeline s "openai" = Except.ok (get_openai s) ∧
    buildPipeline s "ollama" = Except.ok (get_ollama s) := by
  have hofv : LLMProvider.ofValue provider = Option.none := by
    unfold LLMProvider.ofValue
    rw [if_neg h2, if_neg h1]
  refine ⟨?_, rfl, rfl⟩
  unfold cliMain buildPipeline
  rw [hofv]

/-- Witness for C8 at the provider string `"azure"`. -/
theorem unsupported_provider_fails_witness :
    cliMain ⟨"", ""⟩ (fun _ _ => []) "azure" [] ⟨PyVal.none, PyVal.none, false⟩
        "out.pdf" =
      Except.error (ConfigError.invalidProvider "azure") ∧
    buildPipeline ⟨"", ""⟩ "openai" = Except.ok (get_openai ⟨"", ""⟩) ∧
    buildPipeline ⟨"", ""⟩ "ollama" = Except.ok (get_ollama ⟨"", ""⟩) :=
  unsupported_provider_fails ⟨"", ""⟩ (fun _ _ => []) "azure" []
    ⟨PyVal.none, PyVal.none, false⟩ "out.pdf" (by decide) (by decide)

/-- C9: supplied page numbers that convert to an empty range (0-based start at
least the exclusive end) make `extract_pii` return the empty entity list with
zero LLM calls and no error. -/
theorem extract_pii_empty_range (llm : String → List PIIEntity) (doc : List Page)
    (m n : Int) (hm : m ≠ 0) (hn : n ≠ 0) (hle : n ≤ m - 1) :
    extract_pii llm doc (PyVal.int m) (PyVal.int n) = some ([], []) := by
  have htm : pyTruthy (PyVal.int m) = true := by simp [pyTruthy, hm]
  have htn : pyTruthy (PyVal.int n) = true := by simp [pyTruthy, hn]
  have h1 : fromPageIdx (PyVal.int m) = some (m - 1) := by
    unfold fromPageIdx
    rw [if_pos htm]
    rfl
  have h2 : toPageIdx doc.length (PyVal.int n) = some n := by
    unfold toPageIdx
    rw [if_pos htn]
    rfl
  unfold extract_pii extractRange
  rw [h1, h2]
  show (pythonRange (m - 1) n).foldl (extractStep llm doc) (some ([], [])) = _
  rw [pythonRange_eq_nil hle]
  rfl

/-- Witness for C9 at `from_page_no = 3`, `to_page_no = 1`. -/
theorem extract_pii_empty_range_witness :
    extract_pii (fun _ => []) [] (PyVal.int 3) (PyVal.int 1) = some ([], []) :=
  extract_pii_empty_range (fun _ => []) [] 3 1 (by decide) (by decide) (by decide)

/-- C10: exactly the values `None`, `""` and `0` are falsy, and any falsy
`from_page_no` / `to_page_no` falls back to the defaults (first page and
document page count), so such arguments select the full document — in
particular the web front end's empty-string default for `to_page_no`. -/
theorem falsy_page_args_use_defaults :
    (∀ v : PyVal, pyTruthy v = false ↔
        (v = PyVal.none ∨ v = PyVal.str "" ∨ v = PyVal.int 0)) ∧
    (∀ v : PyVal, pyTruthy v = false → fromPageIdx v = some 0) ∧
    (∀ (w : PyVal) (pc : Nat), pyTruthy w = false → toPageIdx pc w = some (pc : Int)) ∧
    (∀ (v w : PyVal) (llm : String → List PIIEntity) (doc : List Page),
      pyTruthy v = false → pyTruthy w = false →
      extract_pii llm doc v w = extract_pii llm doc PyVal.none PyVal.none) := by
  refine ⟨?_, ?_, ?_, ?_⟩
  · intro v
    cases v with
    | none => simp [pyTruthy]
    | int n => simp [pyTruthy]
    | str s => simp [pyTruthy]
  · intro v hv
    unfold fromPageIdx
    rw [if_neg (by simp [hv])]
  · intro w pc hw
    unfold toPageIdx
    rw [if_neg (by simp [hw])]
  · intro v w llm doc hv hw
    have h1 : fromPageIdx v = some 0 := by
      unfold fromPageIdx
      rw [if_neg (by simp [hv])]
    have h2 : toPageIdx doc.length w = some (doc.length : Int) := by
      unfold toPageIdx
      rw [if_neg (by simp [hw])]
    unfold extract_pii extractRange
    rw [h1, h2]
    rfl

/-- Witness for C10: empty-string page arguments (the web front end's default
for `to_page_no`) behave like absent arguments on a concrete document. -/
theorem falsy_page_args_use_defaults_witness :
    extract_pii (fun _ => []) [mkPage "a"] (PyVal.str "") (PyVal.str "") =
      extract_pii (fun _ => []) [mkPage "a"] PyVal.none PyVal.none :=
  falsy_page_args_use_defaults.2.2.2 (PyVal.str "") (PyVal.str "")
    (fun _ => []) [mkPage "a"] rfl rfl

end Maskit
